import Mathlib

/-!
Verification development for the Nitroscout lead-acquisition pipeline.

The definitions below are a shallow embedding of the Python sources:
`src/agents/reviewer.py` (ReviewerAgent: credential rotation, batched LLM
scoring, prefilter, thresholding), `src/agents/reddit_scout.py` (RedditScout:
two-phase scan, comment-tree flattening, selective enrichment),
`src/agents/scout.py` (HackerNewsScout), and the artifact bookkeeping in
`src/main.py` (run_reddit).  External effects (HTTP requests, the Gemini
client, `json.loads`) are modelled as explicit oracle parameters; machine
integers are `Int`/`Nat` (Python integers are unbounded, so no wrap-around
is modelled).
-/

namespace Nitroscout

/-- Outcome of one `model.generate_content(prompt)` call as observed by
`ReviewerAgent._call_llm` (reviewer.py lines 100-114): `success t` is a call
that returns normally, carrying `response.text.strip()`; `quota` is an
exception whose text contains `"429"` or `"RESOURCE_EXHAUSTED"`; `other` is
any other exception. -/
inductive LLMOutcome where
  | success (text : String)
  | quota
  | other
deriving DecidableEq, Repr

/-- Credential-rotation state of a `ReviewerAgent` instance (reviewer.py
lines 45-55): the pool size `len(self._api_keys)`, the cursor
`self._current_key_index`, and `self.model` (`some i` when a Gemini model is
configured with key `i`, `none` when `self.model is None`). -/
structure RState where
  numKeys : Nat
  currentKeyIndex : Nat
  model : Option Nat
deriving DecidableEq, Repr

/-- `ReviewerAgent._init_model` (reviewer.py lines 57-65): keeps `model = None`
when the index is past the pool, otherwise configures the key at that index. -/
def initModel (st : RState) (keyIndex : Nat) : RState :=
  if st.numKeys ≤ keyIndex then { st with model := none }
  else { st with model := some keyIndex }

/-- `ReviewerAgent.__init__` (reviewer.py lines 45-55): cursor at 0; the model
is initialised only when the key pool is non-empty. -/
def initState (numKeys : Nat) : RState :=
  let st : RState := { numKeys := numKeys, currentKeyIndex := 0, model := none }
  if numKeys = 0 then st else initModel st 0

/-- `ReviewerAgent._rotate_key` (reviewer.py lines 67-76): advance the cursor;
if it passed the last key, drop the model and report failure, otherwise
re-initialise with the next key and report success. -/
def rotateKey (st : RState) : Bool × RState :=
  let st1 : RState := { st with currentKeyIndex := st.currentKeyIndex + 1 }
  if st.numKeys ≤ st1.currentKeyIndex then (false, { st1 with model := none })
  else (true, initModel st1 st1.currentKeyIndex)

/-- Result of `_call_llm`: the returned text (`none` models Python `None`),
the credential state afterwards, and how many `generate_content` calls were
made. -/
structure CallResult where
  result : Option String
  state : RState
  calls : Nat
deriving DecidableEq, Repr

/-- The `while attempt < max_retries` loop of `ReviewerAgent._call_llm`
(reviewer.py lines 95-115), with `remaining = max_retries - attempt` as the
structural loop counter.  The oracle is indexed by the running count of
`generate_content` calls and receives the prompt (each retry reuses the same
prompt string).  A quota error rotates the key and continues; rotation
failure, any other exception, or a missing model breaks out of the loop. -/
def callLLMLoop (oracle : Nat → String → LLMOutcome) (prompt : String) :
    RState → Nat → Nat → CallResult
  | st, 0, calls => ⟨none, st, calls⟩
  | st, remaining + 1, calls =>
    match st.model with
    | none => ⟨none, st, calls⟩
    | some _ =>
      match oracle calls prompt with
      | .success t => ⟨some t, st, calls + 1⟩
      | .quota =>
        match rotateKey st with
        | (false, st1) => ⟨none, st1, calls + 1⟩
        | (true, st1) => callLLMLoop oracle prompt st1 remaining (calls + 1)
      | .other => ⟨none, st, calls + 1⟩

/-- `ReviewerAgent._call_llm` (reviewer.py lines 95-115):
`max_retries = len(self._api_keys) * 2`, starting at attempt 0. -/
def callLLM (oracle : Nat → String → LLMOutcome) (prompt : String)
    (st : RState) : CallResult :=
  callLLMLoop oracle prompt st (st.numKeys * 2) 0

/-- The oracle of a scoring service whose every call raises a quota error. -/
def allQuota : Nat → String → LLMOutcome := fun _ _ => .quota

/-- Python `\s` on the ASCII range, as used by the code-fence stripping
regexes in `_batch_analyze` (reviewer.py lines 167-168). -/
def pyWs (c : Char) : Bool :=
  c = ' ' || c = '\t' || c = '\n' || c = '\r' || c = '\x0b' || c = '\x0c'

/-- Drop leading Python whitespace. -/
def dropWs (cs : List Char) : List Char := cs.dropWhile pyWs

/-- Drop trailing Python whitespace. -/
def dropRightWs (cs : List Char) : List Char := (cs.reverse.dropWhile pyWs).reverse

/-- The two fence-stripping substitutions of `_batch_analyze` (reviewer.py
lines 167-168): `re.sub(r"^` ``` `(?:json)?\s*", "", raw)` followed by
`re.sub(r"\s*` ``` `$", "", text)`.  The second regex's `$` also matches just
before a single trailing newline, hence the `"```\n"` suffix case. -/
def stripFencesL (cs : List Char) : List Char :=
  let t :=
    if ("```json".data).isPrefixOf cs then dropWs (cs.drop 7)
    else if ("```".data).isPrefixOf cs then dropWs (cs.drop 3)
    else cs
  if ("```".data).isSuffixOf t then dropRightWs (t.take (t.length - 3))
  else if ("```\n".data).isSuffixOf t then dropRightWs (t.take (t.length - 4)) ++ ['\n']
  else t

/-- Fence stripping on strings. -/
def stripFences (s : String) : String := String.mk (stripFencesL s.data)

/-- Whether `hay` begins with `needle` (the positional test underlying
Python's substring containment). -/
def beginsWith : List Char → List Char → Bool
  | [], _ => true
  | _ :: _, [] => false
  | a :: as, b :: bs => a == b && beginsWith as bs

/-- Python's substring containment `needle in hay`. -/
def occursIn (needle : List Char) : List Char → Bool
  | [] => needle.isEmpty
  | c :: t => beginsWith needle (c :: t) || occursIn needle t

/-- Python `str.lower()` restricted to ASCII case mapping (every keyword and
every input considered here is ASCII). -/
def pyLower (s : String) : String := String.mk (s.data.map Char.toLower)

/-- `ReviewerAgent.PREFILTER_KEYWORDS` (reviewer.py lines 39-43). -/
def PREFILTER_KEYWORDS : List String :=
  ["mcp", "model context protocol", "agent", "llm", "ai ", "typescript",
   "server", "sdk", "plugin", "tool", "framework", "infrastructure",
   "nitrostack", "nitro", "openai", "anthropic", "gemini", "cursor"]

/-- The per-record test of `ReviewerAgent._prefilter` (reviewer.py lines
88-90): lowercase `title + " " + post` and look for any keyword as a
substring. -/
def prefilterPass (title post : String) : Bool :=
  PREFILTER_KEYWORDS.any (fun kw => occursIn kw.data (pyLower (title ++ " " ++ post)).data)

/-- Modelled from the spec: the prefilter predicate as §4.2 words it, testing
keywords against "the concatenation of title and body" (no separating space).
Stated only to compare with `prefilterPass`, which embeds the source. -/
def specPrefilterPass (title post : String) : Bool :=
  PREFILTER_KEYWORDS.any (fun kw => occursIn kw.data (pyLower (title ++ post)).data)

/-- One candidate record of the reviewer's input JSON (title key plus the
fields `_batch_analyze` reads: `post`, `url`, `comments`), in stable
insertion order of the dict. -/
structure Candidate where
  title : String
  post : String
  url : String
  commentTexts : List String
deriving DecidableEq, Repr

/-- `ReviewerAgent._prefilter` (reviewer.py lines 85-93) over the full
insertion-ordered record list. -/
def prefilterCandidates (data : List Candidate) : List Candidate :=
  data.filter (fun c => prefilterPass c.title c.post)

/-- One item of the parsed JSON-array response: `{index, score, analysis}`
(reviewer.py lines 171-180).  Missing fields default to `0` / `""` via
`item.get`. -/
structure RespItem where
  index : Int
  score : Int
  analysis : String
deriving DecidableEq, Repr

/-- One scored lead as built by `_batch_analyze` (reviewer.py lines 176-182). -/
structure ScoredLead where
  title : String
  url : String
  score : Int
  analysis : String
  comment_count : Nat
deriving DecidableEq, Repr

/-- The dict appended for one in-range response item (reviewer.py lines
176-182): title and info of the candidate at position `index - 1`. -/
def scoredOf (c : Candidate) (item : RespItem) : ScoredLead :=
  { title := c.title, url := c.url, score := item.score,
    analysis := item.analysis, comment_count := c.commentTexts.length }

/-- The response-mapping loop of `_batch_analyze` (reviewer.py lines
171-183): each item's `index - 1` selects a candidate position; out-of-range
positions are skipped and the remaining items still processed. -/
def scoreItems (cands : List Candidate) : List RespItem → List ScoredLead
  | [] => []
  | item :: rest =>
    if 0 ≤ item.index - 1 then
      match cands[(item.index - 1).toNat]? with
      | some c => scoredOf c item :: scoreItems cands rest
      | none => scoreItems cands rest
    else scoreItems cands rest

/-- The 1-based enumeration of candidate titles in the batch prompt
(`enumerate(titles, 1)`, reviewer.py line 124). -/
def promptEntries (cands : List Candidate) : List (Nat × String) :=
  cands.enum.map (fun p => (p.1 + 1, p.2.title))

/-- One line of the prompt's post list (reviewer.py lines 124-128): 1-based
index, title, snippet (`post[:300]`, with a placeholder when empty), and
comment count. -/
def buildPostLine (i : Nat) (c : Candidate) : String :=
  let sn := c.post.take 300
  toString i ++ ". TITLE: " ++ c.title ++ "\n   SNIPPET: " ++
    (if sn = "" then "[No post body — comments-only thread]" else sn) ++
    "\n   COMMENTS: " ++ toString c.commentTexts.length

/-- The batch prompt (reviewer.py lines 130-160): knowledge context capped at
800 characters plus the enumerated post list.  The static instruction
boilerplate around them is omitted; it is constant text that no verified
property depends on. -/
def promptOf (kb : String) (cands : List Candidate) : String :=
  kb.take 800 ++ "\n" ++
    String.intercalate "\n\n" (cands.enum.map (fun p => buildPostLine (p.1 + 1) p.2))

/-- Result of `_batch_analyze`: scored list, credential state, call count. -/
structure BatchResult where
  scored : List ScoredLead
  state : RState
  calls : Nat
deriving DecidableEq, Repr

/-- `ReviewerAgent._batch_analyze` (reviewer.py lines 117-186).  `parse`
models `json.loads` on the fence-stripped text, restricted to the shape the
loop consumes (`none` is a `json.JSONDecodeError`, which the code catches by
returning `[]`).  An empty or missing response also yields `[]`. -/
def batchAnalyze (parse : String → Option (List RespItem))
    (oracle : Nat → String → LLMOutcome) (st : RState)
    (kb : String) (cands : List Candidate) : BatchResult :=
  match st.model with
  | none => ⟨[], st, 0⟩
  | some _ =>
    let r := callLLM oracle (promptOf kb cands) st
    match r.result with
    | none => ⟨[], r.state, r.calls⟩
    | some raw =>
      if raw = "" then ⟨[], r.state, r.calls⟩
      else
        match parse (stripFences raw) with
        | none => ⟨[], r.state, r.calls⟩
        | some results => ⟨scoreItems cands results, r.state, r.calls⟩

/-- `ReviewerAgent._generate_insights` (reviewer.py lines 188-247): returns
`""` when the model is gone or there are no high-signal leads; otherwise one
`_call_llm` whose missing result degrades to `""`.  The prompt text is passed
in; its construction does not affect the modelled control flow. -/
def generateInsights (oracle : Nat → String → LLMOutcome) (st : RState)
    (highSignalLeads : List ScoredLead) (prompt : String) : String × RState × Nat :=
  if st.model = none ∨ highSignalLeads = [] then ("", st, 0)
  else
    let r := callLLM oracle prompt st
    (r.result.getD "", r.state, r.calls)

/-- The thresholding and ordering step of `ReviewerAgent.analyze_leads`
(reviewer.py lines 271-272): keep score ≥ 5, then a stable sort descending by
score (`list.sort` is stable; `reverse=True` with a stable sort is the stable
descending sort embedded here by `mergeSort` with `b.score ≤ a.score`). -/
def highSignalOf (allScored : List ScoredLead) : List ScoredLead :=
  (allScored.filter (fun l => decide (5 ≤ l.score))).mergeSort
    (fun a b => decide (b.score ≤ a.score))

/-- One flattened Reddit comment as built by `RedditScout.fetch_comments`
(reddit_scout.py lines 112-118): author, body text, score, nesting depth. -/
structure RedditComment where
  author : String
  text : String
  score : Int
  depth : Nat
deriving DecidableEq, Repr

/-- One node of a Reddit reply tree: the child's `kind` tag (only `"t1"` is a
comment), the `data` fields the flattener reads, and the nested
`replies.data.children` list (empty when `replies` is `""` or absent). -/
inductive RTree where
  | node (kind author body : String) (score : Int) (replies : List RTree)

/-- The recursive `flatten(children_list, depth)` of
`RedditScout.fetch_comments` (reddit_scout.py lines 108-123): skip non-`t1`
children entirely, emit a `t1` child at the current depth, then its replies at
depth + 1, then the remaining siblings. -/
def flattenR : List RTree → Nat → List RedditComment
  | [], _ => []
  | RTree.node k a b s replies :: rest, d =>
    if k = "t1" then
      { author := a, text := b, score := s, depth := d }
        :: (flattenR replies (d + 1) ++ flattenR rest d)
    else flattenR rest d

/-- Default `max_comments` of `RedditScout.fetch_comments`
(reddit_scout.py line 84) — the only comment cap configured anywhere. -/
def redditDefaultMaxComments : Nat := 20

/-- `RedditScout.fetch_comments`' flatten-then-cap result (reddit_scout.py
lines 125-126): `flatten(comment_listing)` from depth 0, then
`comments[:max_comments]`. -/
def redditFetchComments (listing : List RTree) (maxComments : Nat) : List RedditComment :=
  (flattenR listing 0).take maxComments

/-- One post record of a subreddit listing (`post["data"]`), with the fields
`RedditScout.scan` reads (reddit_scout.py lines 53-73).  `created_utc` is the
integer epoch timestamp. -/
structure RPost where
  stickied : Bool
  title : String
  permalink : String
  id : String
  created_utc : Int
  selftext : String
  score : Int
  num_comments : Int
deriving DecidableEq, Repr

/-- One lead dict appended by `RedditScout.scan` (reddit_scout.py lines
60-73).  `date_utc` carries `created_utc`; the code renders it as an ISO
string, an order-preserving presentation not modelled further. -/
structure RLead where
  subreddit : String
  title : String
  url : String
  reddit_id : String
  date_utc : Int
  text : String
  upvotes : Int
  comment_count : Int
  comments : List RedditComment
deriving DecidableEq, Repr

/-- The lead built from one non-stickied listing post
(reddit_scout.py lines 60-73); comments start empty (filled in phase 2). -/
def leadOfPost (sub : String) (p : RPost) : RLead :=
  { subreddit := sub, title := p.title,
    url := "https://www.reddit.com" ++ p.permalink, reddit_id := p.id,
    date_utc := p.created_utc, text := p.selftext, upvotes := p.score,
    comment_count := p.num_comments, comments := [] }

/-- The per-post loop of `RedditScout.scan` (reddit_scout.py lines 53-73):
stickied posts are skipped, everything else becomes a lead in listing order. -/
def buildLeads (sub : String) : List RPost → List RLead
  | [] => []
  | p :: rest =>
    if p.stickied then buildLeads sub rest
    else leadOfPost sub p :: buildLeads sub rest

/-- Outcome of one listing request in `RedditScout.scan`: an HTTP response
with status code and parsed posts (`data.data.children`, empty for
non-listing bodies), or an exception raised by the request/parse. -/
inductive FetchOutcome where
  | resp (status : Nat) (posts : List RPost)
  | exn
deriving DecidableEq, Repr

/-- What one channel contributes to the scan: its leads, how many HTTP
requests were issued for it, and how many fixed-backoff sleeps
(`time.sleep(10)` on a 429) ran. -/
structure ChannelResult where
  leads : List RLead
  requests : Nat
  backoffSleeps : Nat
deriving DecidableEq, Repr

/-- The per-subreddit body of `RedditScout.scan` (reddit_scout.py lines
36-79): on a 429 status sleep once and retry the same request exactly once,
then a single `!= 200` check skips the channel; an exception from either
request yields zero results for the channel.  `fetch n` is the outcome of the
channel's `n`-th request. -/
def scanChannel (sub : String) (fetch : Nat → FetchOutcome) : ChannelResult :=
  match fetch 0 with
  | .exn => ⟨[], 1, 0⟩
  | .resp status posts =>
    if status = 429 then
      match fetch 1 with
      | .exn => ⟨[], 2, 1⟩
      | .resp s2 p2 =>
        if s2 ≠ 200 then ⟨[], 2, 1⟩ else ⟨buildLeads sub p2, 2, 1⟩
    else if status ≠ 200 then ⟨[], 1, 0⟩
    else ⟨buildLeads sub posts, 1, 0⟩

/-- `RedditScout.scan` over the configured subreddits (reddit_scout.py lines
26-82): channels are visited in order and each appends its own leads,
whatever happened on the other channels. -/
def redditScan (subs : List String) (fetch : String → Nat → FetchOutcome) : List RLead :=
  match subs with
  | [] => []
  | s :: rest => (scanChannel s (fetch s)).leads ++ redditScan rest fetch

/-- `RedditScout.enrich_leads` (reddit_scout.py lines 132-146): leads whose
title is in the high-signal list get `fetch_comments` attached; every other
lead is untouched.  `fetch` models the phase-2 comment fetch for one lead. -/
def enrichLeads (fetch : RLead → List RedditComment) (highTitles : List String) :
    List RLead → List RLead
  | [] => []
  | l :: rest =>
    (if l.title ∈ highTitles then { l with comments := fetch l } else l)
      :: enrichLeads fetch highTitles rest

/-- One value of the on-disk JSON artifact `title → record` written by
`run_reddit` (main.py lines 146-156). -/
structure RRecord where
  date_utc : Int
  url : String
  subreddit : String
  reddit_id : String
  upvotes : Int
  post : String
  comment_count : Int
  comments : List RedditComment
deriving DecidableEq, Repr

/-- The phase-1 record written for one lead (main.py lines 147-156):
`"comments": []` literally. -/
def recOf (l : RLead) : RRecord :=
  { date_utc := l.date_utc, url := l.url, subreddit := l.subreddit,
    reddit_id := l.reddit_id, upvotes := l.upvotes, post := l.text,
    comment_count := l.comment_count, comments := [] }

/-- The phase-1 artifact dict (main.py lines 146-156): later leads with the
same title overwrite earlier ones, as Python dict assignment does. -/
def phase1Data (leads : List RLead) : String → Option RRecord :=
  leads.foldl (fun m l => fun t => if t = l.title then some (recOf l) else m t)
    (fun _ => none)

/-- One step of the phase-2 artifact update (main.py lines 174-176): if the
lead's title is a key, overwrite that record's `comments` with the lead's. -/
def setComments (m : String → Option RRecord) (l : RLead) : String → Option RRecord :=
  match m l.title with
  | none => m
  | some r => fun t => if t = l.title then some { r with comments := l.comments } else m t

/-- The phase-2 artifact re-write loop (main.py lines 174-176) over the
enriched lead list. -/
def updateData (m : String → Option RRecord) (leads : List RLead) :
    String → Option RRecord :=
  leads.foldl setComments m

/-- The on-disk artifact after phase 2 of `run_reddit` (main.py lines
144-181): phase-1 records, then comments merged back from the enriched
in-memory leads. -/
def finalArtifact (fetch : RLead → List RedditComment) (highTitles : List String)
    (leads : List RLead) : String → Option RRecord :=
  updateData (phase1Data leads) (enrichLeads fetch highTitles leads)

/-- One flattened Hacker News comment as built by
`HackerNewsScout.get_comments` (scout.py lines 33-38): author, text and
timestamp only — no depth field. -/
structure HNComment where
  author : Option String
  text : Option String
  created_at : String
deriving DecidableEq, Repr

/-- One node of an Algolia item's reply tree: the fields `flatten_comments`
reads plus the nested `children`. -/
inductive HNNode where
  | node (author text : Option String) (created_at : String) (children : List HNNode)

/-- The recursive `flatten_comments` of `HackerNewsScout.get_comments`
(scout.py lines 32-42): emit each child, then recurse into its children;
depth-first, parent immediately before its children, no depth recorded and no
cap applied. -/
def hnFlatten : List HNNode → List HNComment
  | [] => []
  | HNNode.node a t ca children :: rest =>
    { author := a, text := t, created_at := ca } :: (hnFlatten children ++ hnFlatten rest)

/-- `HackerNewsScout.get_comments` (scout.py lines 22-46): `none` models an
exception anywhere in the fetch/parse (caught, yielding `[]`); otherwise the
item's `children` list is flattened in full. -/
def hnGetComments (itemChildren : Option (List HNNode)) : List HNComment :=
  match itemChildren with
  | none => []
  | some children => hnFlatten children

/-- A childless Hacker News reply node. -/
def hnLeafNode : HNNode := HNNode.node none none "" []

/-- A concrete Hacker News thread with 21 top-level replies — one more than
the only comment cap configured anywhere in the system
(`redditDefaultMaxComments = 20`). -/
def hnWideThread : List HNNode :=
  [hnLeafNode, hnLeafNode, hnLeafNode, hnLeafNode, hnLeafNode, hnLeafNode,
   hnLeafNode, hnLeafNode, hnLeafNode, hnLeafNode, hnLeafNode, hnLeafNode,
   hnLeafNode, hnLeafNode, hnLeafNode, hnLeafNode, hnLeafNode, hnLeafNode,
   hnLeafNode, hnLeafNode, hnLeafNode]

/-- One Algolia search hit with the fields `HackerNewsScout.scan` reads
(scout.py lines 68-87).  `created_at_ts` is the parse of the ISO timestamp,
modelled as an integer epoch value (the parse is order-preserving). -/
structure HNHit where
  created_at_ts : Int
  objectID : String
  title : Option String
  story_text : Option String
deriving DecidableEq, Repr

/-- One lead dict appended by `HackerNewsScout.scan` (scout.py lines 79-87). -/
structure HNLead where
  keyword_found : String
  title : String
  url : String
  date_ts : Int
  text : String
  comments : List HNComment
deriving DecidableEq, Repr

/-- The lead built from one recent hit (scout.py lines 73-87): `hit.get
("title") or "No Title"`, `hit.get("story_text") or ""`, and an inline
comment fetch. -/
def hnLeadOfHit (kw : String) (getC : String → List HNComment) (h : HNHit) : HNLead :=
  { keyword_found := kw,
    title := (let t := h.title.getD ""; if t = "" then "No Title" else t),
    url := "https://news.ycombinator.com/item?id=" ++ h.objectID,
    date_ts := h.created_at_ts, text := h.story_text.getD "",
    comments := getC h.objectID }

/-- The per-hit loop of `HackerNewsScout.scan` (scout.py lines 68-87): keep
hits newer than the lookback threshold, fetching their comments inline. -/
def hnProcessHits (kw : String) (threshold : Int) (getC : String → List HNComment) :
    List HNHit → List HNLead
  | [] => []
  | h :: rest =>
    if threshold < h.created_at_ts then
      hnLeadOfHit kw getC h :: hnProcessHits kw threshold getC rest
    else hnProcessHits kw threshold getC rest

/-- Outcome of one Algolia search request: a response with its status code
and the parsed `hits` (empty for a non-listing body), or an exception. -/
inductive HNFetchOutcome where
  | resp (status : Nat) (hits : List HNHit)
  | exn
deriving DecidableEq, Repr

/-- The per-keyword body of `HackerNewsScout.scan` (scout.py lines 58-90)
with its request count: exactly one request is issued; the status code is
never inspected (no retry, no backoff, no skip-on-status — the body is parsed
whatever the status); an exception yields zero results for the keyword. -/
def hnScanChannel (kw : String) (threshold : Int) (getC : String → List HNComment)
    (out : HNFetchOutcome) : List HNLead × Nat :=
  match out with
  | .exn => ([], 1)
  | .resp _ hits => (hnProcessHits kw threshold getC hits, 1)

/-- `HackerNewsScout.scan` over the configured keywords (scout.py lines
48-93): each keyword contributes its own leads, whatever happened on the
other keywords. -/
def hnScan (keywords : List String) (threshold : Int)
    (getC : String → List HNComment) (fetch : String → HNFetchOutcome) : List HNLead :=
  match keywords with
  | [] => []
  | kw :: rest =>
    (hnScanChannel kw threshold getC (fetch kw)).1 ++ hnScan rest threshold getC fetch

/-! ### Helper lemmas -/

theorem rotateKey_last (st : RState) (h : st.numKeys ≤ st.currentKeyIndex + 1) :
    rotateKey st =
      (false, { st with currentKeyIndex := st.currentKeyIndex + 1, model := none }) := by
  simp [rotateKey, h]

theorem rotateKey_more (st : RState) (h : ¬ st.numKeys ≤ st.currentKeyIndex + 1) :
    rotateKey st =
      (true, { st with currentKeyIndex := st.currentKeyIndex + 1, model := some (st.currentKeyIndex + 1) }) := by
  simp [rotateKey, initModel, h]

theorem callLLMLoop_allQuota :
    ∀ (remaining : Nat) (st : RState) (calls : Nat) (prompt : String),
      st.model = some st.currentKeyIndex →
      st.currentKeyIndex < st.numKeys →
      st.numKeys - st.currentKeyIndex ≤ remaining →
      callLLMLoop allQuota prompt st remaining calls =
        ⟨none, { st with currentKeyIndex := st.numKeys, model := none },
          calls + (st.numKeys - st.currentKeyIndex)⟩ := by
  intro remaining
  induction remaining with
  | zero => intro st calls prompt hm hlt hbud; omega
  | succ n ih =>
    intro st calls prompt hm hlt hbud
    simp only [callLLMLoop, hm, allQuota]
    by_cases hend : st.numKeys ≤ st.currentKeyIndex + 1
    · rw [rotateKey_last st hend]
      simp only [CallResult.mk.injEq, RState.mk.injEq, true_and, and_true]
      omega
    · rw [rotateKey_more st hend]
      show callLLMLoop allQuota prompt
        ⟨st.numKeys, st.currentKeyIndex + 1, some (st.currentKeyIndex + 1)⟩ n (calls + 1) = _
      rw [ih ⟨st.numKeys, st.currentKeyIndex + 1, some (st.currentKeyIndex + 1)⟩ (calls + 1)
        prompt rfl (by show st.currentKeyIndex + 1 < st.numKeys; omega)
        (by show st.numKeys - (st.currentKeyIndex + 1) ≤ n; omega)]
      simp only [CallResult.mk.injEq, RState.mk.injEq, true_and, and_true]
      omega

theorem callLLM_modelNone (oracle : Nat → String → LLMOutcome) (prompt : String)
    (st : RState) (hm : st.model = none) :
    callLLM oracle prompt st = ⟨none, st, 0⟩ := by
  unfold callLLM
  cases hnk : st.numKeys * 2 with
  | zero => simp [callLLMLoop]
  | succ n => simp [callLLMLoop, hm]

theorem initState_pos (k : Nat) (hk : 1 ≤ k) :
    initState k = ⟨k, 0, some 0⟩ := by
  have h0 : ¬ (k = 0) := by omega
  have h1 : ¬ (k ≤ 0) := by omega
  simp [initState, initModel, h0, h1]

theorem callLLM_allQuota_initState (k : Nat) (hk : 1 ≤ k) (prompt : String) :
    callLLM allQuota prompt (initState k) = ⟨none, ⟨k, k, none⟩, k⟩ := by
  rw [initState_pos k hk]
  show callLLMLoop allQuota prompt ⟨k, 0, some 0⟩ (k * 2) 0 = _
  rw [callLLMLoop_allQuota (k * 2) ⟨k, 0, some 0⟩ 0 prompt rfl (by show 0 < k; omega)
    (by show k - 0 ≤ k * 2; omega)]
  simp only [CallResult.mk.injEq, RState.mk.injEq, true_and, and_true]
  omega

/-! ### Claim theorems -/

/-- Claim C1: with a pool of `k ≥ 1` keys and every scoring call raising a
quota error, `_call_llm` makes at most `2k` attempts, returns `None` (so the
batch result is the empty list), and never raises; afterwards the cursor is
past the last key and every later call (including the insight-synthesis one)
returns no result. -/
theorem claim1_rotation_bound (k : Nat) (hk : 1 ≤ k) (prompt : String) :
    (callLLM allQuota prompt (initState k)).result = none ∧
    (callLLM allQuota prompt (initState k)).calls ≤ 2 * k ∧
    (callLLM allQuota prompt (initState k)).state.model = none ∧
    (∀ (oracle : Nat → String → LLMOutcome) (p2 : String),
      callLLM oracle p2 (callLLM allQuota prompt (initState k)).state =
        ⟨none, (callLLM allQuota prompt (initState k)).state, 0⟩) ∧
    (∀ (parse : String → Option (List RespItem)) (kb : String) (cands : List Candidate),
      (batchAnalyze parse allQuota (initState k) kb cands).scored = []) ∧
    (∀ (oracle : Nat → String → LLMOutcome) (hs : List ScoredLead) (p2 : String),
      (generateInsights oracle (callLLM allQuota prompt (initState k)).state hs p2).1 = "") := by
  have hrun := callLLM_allQuota_initState k hk prompt
  refine ⟨by rw [hrun], by rw [hrun]; show k ≤ 2 * k; omega, by rw [hrun], ?_, ?_, ?_⟩
  · intro oracle p2
    rw [hrun]
    exact callLLM_modelNone oracle p2 _ rfl
  · intro parse kb cands
    have hrun2 := callLLM_allQuota_initState k hk (promptOf kb cands)
    rw [initState_pos k hk] at hrun2 ⊢
    simp [batchAnalyze, hrun2]
  · intro oracle hs p2
    rw [hrun]
    simp [generateInsights]

theorem claim1_rotation_bound_witness :
    1 ≤ 2 ∧ (callLLM allQuota "p" (initState 2)).calls ≤ 2 * 2 :=
  ⟨by decide, (claim1_rotation_bound 2 (by decide) "p").2.1⟩

theorem scoreItems_cons_in (cands : List Candidate) (item : RespItem)
    (rest : List RespItem) (i : Nat) (c : Candidate)
    (hc : cands[i]? = some c) (hidx : item.index = (i : Int) + 1) :
    scoreItems cands (item :: rest) = scoredOf c item :: scoreItems cands rest := by
  have h0 : (0 : Int) ≤ item.index - 1 := by omega
  have ht : (item.index - 1).toNat = i := by omega
  simp only [scoreItems]
  rw [if_pos h0, ht, hc]

theorem scoreItems_cons_out (cands : List Candidate) (item : RespItem)
    (rest : List RespItem)
    (h : item.index < 1 ∨ (cands.length : Int) < item.index) :
    scoreItems cands (item :: rest) = scoreItems cands rest := by
  rcases h with h | h
  · simp only [scoreItems]
    rw [if_neg (by omega)]
  · have h0 : (0 : Int) ≤ item.index - 1 := by omega
    have hlen : cands.length ≤ (item.index - 1).toNat := by omega
    simp only [scoreItems]
    rw [if_pos h0, List.getElem?_eq_none hlen]

/-- Claim C2: each parsed response item with 1-based index `i ∈ [1, n]` is
re-associated with the candidate at position `i − 1` of the stable insertion
order — the same candidate enumerated at 1-based position `i` of the prompt —
and an item with an out-of-range index is dropped silently, leaving the rest
of the batch intact. -/
theorem claim2_index_mapping :
    (∀ (cands : List Candidate) (results : List RespItem) (item : RespItem),
      item ∈ results → ∀ (i : Nat) (c : Candidate), cands[i]? = some c →
      item.index = (i : Int) + 1 →
      scoredOf c item ∈ scoreItems cands results) ∧
    (∀ (cands : List Candidate) (item : RespItem) (rest : List RespItem),
      item.index < 1 ∨ (cands.length : Int) < item.index →
      scoreItems cands (item :: rest) = scoreItems cands rest) ∧
    (∀ (cands : List Candidate) (i : Nat) (c : Candidate), cands[i]? = some c →
      (promptEntries cands)[i]? = some (i + 1, c.title)) := by
  refine ⟨?_, scoreItems_cons_out, ?_⟩
  · intro cands results item hmem i c hc hidx
    induction results with
    | nil => cases hmem
    | cons hd tl ih =>
      rcases List.mem_cons.mp hmem with rfl | h
      · rw [scoreItems_cons_in cands item tl i c hc hidx]
        exact List.mem_cons_self _ _
      · have hmem2 := ih h
        by_cases h0 : (0 : Int) ≤ hd.index - 1
        · simp only [scoreItems]
          rw [if_pos h0]
          cases hcg : cands[(hd.index - 1).toNat]? with
          | none => exact hmem2
          | some c2 => exact List.mem_cons_of_mem _ hmem2
        · simp only [scoreItems]
          rw [if_neg h0]
          exact hmem2
  · intro cands i c hc
    simp [promptEntries, List.enum, hc]

theorem claim2_index_mapping_witness :
    scoredOf ⟨"t", "p", "u", []⟩ ⟨1, 7, "a"⟩ ∈
      scoreItems [⟨"t", "p", "u", []⟩] [⟨1, 7, "a"⟩] :=
  claim2_index_mapping.1 _ _ _ (by decide) 0 _ (by rfl) (by decide)

/-- Claim C3 counterexample: with three credentials loaded and the first
response malformed (the parse of the fence-stripped text fails),
`_batch_analyze` returns the empty list after exactly one scoring call, with
the key cursor still at 0 — it neither rotates nor retries, contradicting the
claimed rotate-and-retry on parse failure. -/
theorem claim3_counterexample :
    batchAnalyze (fun _ => none) (fun _ _ => .success "not json") (initState 3) ""
        [⟨"t", "p", "u", []⟩] = ⟨[], initState 3, 1⟩ ∧
    decide (2 ≤ (batchAnalyze (fun _ => none) (fun _ _ => .success "not json") (initState 3) ""
        [⟨"t", "p", "u", []⟩]).calls ∨
      0 < (batchAnalyze (fun _ => none) (fun _ _ => .success "not json") (initState 3) ""
        [⟨"t", "p", "u", []⟩]).state.currentKeyIndex) = false := by
  exact ⟨by decide, by decide⟩

/-- Claim C3 (amended): when the scoring-service response fails to parse as a
JSON array after fence stripping, `_batch_analyze` degrades to the empty list
immediately — one call, no rotation, no retry; rotate-and-retry happens only
inside `_call_llm` and only for quota errors. -/
theorem claim3_parse_failure_no_retry (parse : String → Option (List RespItem))
    (oracle : Nat → String → LLMOutcome) (st : RState) (kb : String)
    (cands : List Candidate) (raw : String) (j : Nat)
    (hm : st.model = some j) (hk : 0 < st.numKeys)
    (hor : oracle 0 (promptOf kb cands) = .success raw)
    (hraw : raw ≠ "") (hp : parse (stripFences raw) = none) :
    batchAnalyze parse oracle st kb cands = ⟨[], st, 1⟩ := by
  have hcall : callLLM oracle (promptOf kb cands) st = ⟨some raw, st, 1⟩ := by
    unfold callLLM
    cases hnk : st.numKeys * 2 with
    | zero => omega
    | succ n => simp [callLLMLoop, hm, hor]
  simp [batchAnalyze, hm, hcall, hraw, hp]

theorem claim3_parse_failure_witness :
    batchAnalyze (fun _ => none) (fun _ _ => .success "x") (initState 1) "" [] =
      ⟨[], initState 1, 1⟩ :=
  claim3_parse_failure_no_retry _ _ _ _ _ "x" 0 (by rfl) (by decide) (by rfl)
    (by decide) (by rfl)

/-- Claim C4: a lead appears in the `high_signal` output of `analyze_leads`
iff its relevance score is at least 5; in particular a score-4 lead is
absent and the same lead with score 5 is present. -/
theorem claim4_threshold (allScored : List ScoredLead) (l : ScoredLead) :
    (l ∈ highSignalOf allScored ↔ l ∈ allScored ∧ 5 ≤ l.score) ∧
    highSignalOf [⟨"t", "u", 4, "a", 0⟩] = [] ∧
    highSignalOf [⟨"t", "u", 5, "a", 0⟩] = [⟨"t", "u", 5, "a", 0⟩] := by
  refine ⟨?_, by simp [highSignalOf], by simp [highSignalOf]⟩
  simp [highSignalOf, List.mem_filter]

/-- Claim C5: the `high_signal` output is sorted descending by score, and
leads with equal scores keep their arrival order (the sort is stable: for
every score value, filtering the output to that score gives exactly the
thresholded input subsequence with that score, in input order). -/
theorem claim5_ordering (allScored : List ScoredLead) :
    (highSignalOf allScored).Pairwise (fun a b => b.score ≤ a.score) ∧
    (∀ s : Int, (highSignalOf allScored).filter (fun l => decide (l.score = s)) =
      (allScored.filter (fun l => decide (5 ≤ l.score))).filter
        (fun l => decide (l.score = s))) := by
  have htrans : ∀ (a b c : ScoredLead),
      (fun a b : ScoredLead => decide (b.score ≤ a.score)) a b →
      (fun a b : ScoredLead => decide (b.score ≤ a.score)) b c →
      (fun a b : ScoredLead => decide (b.score ≤ a.score)) a c := by
    intro a b c h1 h2
    simp only [decide_eq_true_iff] at h1 h2 ⊢
    omega
  have htotal : ∀ (a b : ScoredLead),
      ((fun a b : ScoredLead => decide (b.score ≤ a.score)) a b ||
       (fun a b : ScoredLead => decide (b.score ≤ a.score)) b a) = true := by
    intro a b
    simp only [Bool.or_eq_true, decide_eq_true_iff]
    exact Int.le_total b.score a.score
  constructor
  · have hp := List.sorted_mergeSort htrans htotal
      (allScored.filter (fun l => decide (5 ≤ l.score)))
    exact (List.Pairwise.imp (by intro a b h; simpa using h)) hp
  · intro s
    have hmem : ∀ x ∈ (allScored.filter (fun l => decide (5 ≤ l.score))).filter
        (fun l => decide (l.score = s)), x.score = s := by
      intro x hx
      have := (List.mem_filter.mp hx).2
      simpa using this
    have hpair : ((allScored.filter (fun l => decide (5 ≤ l.score))).filter
        (fun l => decide (l.score = s))).Pairwise
        (fun a b : ScoredLead => decide (b.score ≤ a.score)) := by
      apply List.pairwise_of_forall_mem_list
      intro a ha b hb
      have h1 := hmem a ha
      have h2 := hmem b hb
      simp only [decide_eq_true_iff]
      omega
    have hsubm := List.sublist_mergeSort htrans htotal hpair (List.filter_sublist _)
    have hsub2 := (List.Sublist.filter (fun l => decide (l.score = s)) hsubm)
    rw [List.filter_eq_self.mpr (by intro a ha; simpa using hmem a ha)] at hsub2
    have hperm := ((List.mergeSort_perm
      (allScored.filter (fun l => decide (5 ≤ l.score)))
      (fun a b : ScoredLead => decide (b.score ≤ a.score))).filter
      (fun l => decide (l.score = s)))
    exact (hsub2.eq_of_length hperm.length_eq.symm).symm

theorem flattenR_cons_t1 (a b : String) (s : Int) (replies rest : List RTree) (d : Nat) :
    flattenR (RTree.node "t1" a b s replies :: rest) d =
      { author := a, text := b, score := s, depth := d }
        :: (flattenR replies (d + 1) ++ flattenR rest d) := by
  simp [flattenR]

theorem flattenR_depth_ge :
    ∀ (ts : List RTree) (d : Nat), ∀ c ∈ flattenR ts d, d ≤ c.depth := by
  intro ts d
  induction ts, d using flattenR.induct with
  | case1 d => simp [flattenR]
  | case2 a b s replies rest d ih1 ih2 =>
    rw [flattenR_cons_t1]
    intro c hc
    rcases List.mem_cons.mp hc with rfl | hc2
    · simp
    · rcases List.mem_append.mp hc2 with h | h
      · have := ih1 c h
        omega
      · exact ih2 c h
  | case3 k a b s replies rest d hk ih =>
    intro c hc
    rw [show flattenR (RTree.node k a b s replies :: rest) d = flattenR rest d by
      simp [flattenR, hk]] at hc
    exact ih c hc

/-- Claim C6 counterexample: the Hacker News adapter's flattening applies no
cap — a thread with 21 replies yields 21 flattened comments, exceeding the
only configured per-thread comment maximum in the system (the Reddit
adapter's default of 20); the emitted records also carry no depth field. -/
theorem claim6_counterexample :
    (hnFlatten hnWideThread).length = 21 ∧
    redditDefaultMaxComments < (hnFlatten hnWideThread).length := by
  have h : (hnFlatten hnWideThread).length = 21 := by
    simp [hnWideThread, hnLeafNode, hnFlatten]
  exact ⟨h, by rw [h]; decide⟩

/-- Claim C6 (amended): the Reddit adapter's flattening is depth-first with
each `t1` parent emitted immediately before its replies, every reply one
level deeper than its parent (top level at depth 0), and the returned
sequence truncated to at most `max_comments` entries; the Hacker News
adapter's flattening is likewise depth-first with parent before children,
but records no depth and applies no cap. -/
theorem claim6_flatten_depth :
    (∀ (a b : String) (s : Int) (replies rest : List RTree) (d : Nat),
      flattenR (RTree.node "t1" a b s replies :: rest) d =
        { author := a, text := b, score := s, depth := d }
          :: (flattenR replies (d + 1) ++ flattenR rest d)) ∧
    (∀ (ts : List RTree) (d : Nat), ∀ c ∈ flattenR ts d, d ≤ c.depth) ∧
    (∀ (ts : List RTree) (maxC : Nat), (redditFetchComments ts maxC).length ≤ maxC) ∧
    (∀ (a t : Option String) (ca : String) (children rest : List HNNode),
      hnFlatten (HNNode.node a t ca children :: rest) =
        { author := a, text := t, created_at := ca }
          :: (hnFlatten children ++ hnFlatten rest)) := by
  refine ⟨flattenR_cons_t1, flattenR_depth_ge, ?_, ?_⟩
  · intro ts maxC
    simp only [redditFetchComments]
    exact List.length_take_le _ _
  · intro a t ca children rest
    simp [hnFlatten]

theorem claim6_flatten_depth_witness :
    (⟨"a", "b", 1, 0⟩ : RedditComment) ∈ flattenR [RTree.node "t1" "a" "b" 1 []] 0 ∧
    0 ≤ (⟨"a", "b", 1, 0⟩ : RedditComment).depth :=
  ⟨by rw [flattenR_cons_t1]; simp [flattenR],
   claim6_flatten_depth.2.1 [RTree.node "t1" "a" "b" 1 []] 0 ⟨"a", "b", 1, 0⟩
     (by rw [flattenR_cons_t1]; simp [flattenR])⟩

theorem enrichLeads_getElem :
    ∀ (fetch : RLead → List RedditComment) (hts : List String) (leads : List RLead)
      (i : Nat) (l : RLead), leads[i]? = some l →
      (enrichLeads fetch hts leads)[i]? =
        some (if l.title ∈ hts then { l with comments := fetch l } else l) := by
  intro fetch hts leads
  induction leads with
  | nil => intro i l h; simp at h
  | cons hd tl ih =>
    intro i l h
    cases i with
    | zero =>
      simp only [List.getElem?_cons_zero, Option.some.injEq] at h
      subst h
      simp [enrichLeads]
    | succ n =>
      simp only [List.getElem?_cons_succ] at h
      simp only [enrichLeads, List.getElem?_cons_succ]
      exact ih n l h

theorem enrichLeads_nonHigh_comments :
    ∀ (fetch : RLead → List RedditComment) (hts : List String) (leads : List RLead),
      (∀ l ∈ leads, l.comments = []) →
      ∀ l2 ∈ enrichLeads fetch hts leads, l2.title ∉ hts → l2.comments = [] := by
  intro fetch hts leads
  induction leads with
  | nil => intro h l2 h2; simp [enrichLeads] at h2
  | cons l ls ih =>
    intro hall l2 hl2 hnot
    simp only [enrichLeads] at hl2
    rcases List.mem_cons.mp hl2 with rfl | h
    · by_cases hm : l.title ∈ hts
      · rw [if_pos hm] at hnot
        simp only at hnot
        exact absurd hm hnot
      · rw [if_neg hm]
        exact hall l (List.mem_cons_self _ _)
    · exact ih (fun x hx => hall x (List.mem_cons_of_mem _ hx)) l2 h hnot

theorem phase1Data_comments :
    ∀ (leads : List RLead) (m : String → Option RRecord),
      (∀ t r, m t = some r → r.comments = []) →
      ∀ (t : String) (r : RRecord),
        List.foldl (fun m l => fun t => if t = l.title then some (recOf l) else m t)
          m leads t = some r → r.comments = [] := by
  intro leads
  induction leads with
  | nil => intro m hm t r hr; exact hm t r hr
  | cons l ls ih =>
    intro m hm t r hr
    rw [List.foldl_cons] at hr
    refine ih _ ?_ t r hr
    intro t2 r2 h2
    by_cases hteq : t2 = l.title
    · rw [if_pos hteq] at h2
      cases h2
      rfl
    · rw [if_neg hteq] at h2
      exact hm t2 r2 h2

theorem updateData_comments :
    ∀ (leads2 : List RLead) (m : String → Option RRecord) (t : String),
      (∀ l ∈ leads2, l.title = t → l.comments = []) →
      (∀ r, m t = some r → r.comments = []) →
      ∀ r, updateData m leads2 t = some r → r.comments = [] := by
  intro leads2
  induction leads2 with
  | nil => intro m t hl hm r hr; exact hm r hr
  | cons l ls ih =>
    intro m t hl hm r hr
    simp only [updateData, List.foldl_cons] at hr
    refine ih (setComments m l) t (fun x hx hxt => hl x (List.mem_cons_of_mem _ hx) hxt)
      ?_ r hr
    intro r2 hr2
    cases hml : m l.title with
    | none =>
      simp only [setComments, hml] at hr2
      exact hm r2 hr2
    | some r0 =>
      simp only [setComments, hml] at hr2
      by_cases hteq : t = l.title
      · rw [if_pos hteq] at hr2
        cases hr2
        exact hl l (List.mem_cons_self _ _) hteq.symm
      · rw [if_neg hteq] at hr2
        exact hm r2 hr2

/-- Claim C7: `enrich_leads` attaches fetched comments to exactly the leads
whose title is high-signal, modifying no other field; leads with other titles
are untouched, so both the in-memory list and the re-written on-disk
artifact keep `comments = []` for them. -/
theorem claim7_selective_enrichment :
    (∀ (fetch : RLead → List RedditComment) (hts : List String) (leads : List RLead)
        (i : Nat) (l : RLead), leads[i]? = some l →
      ((l.title ∈ hts →
          (enrichLeads fetch hts leads)[i]? = some { l with comments := fetch l }) ∧
       (l.title ∉ hts → (enrichLeads fetch hts leads)[i]? = some l))) ∧
    (∀ (fetch : RLead → List RedditComment) (hts : List String) (leads : List RLead)
        (t : String) (r : RRecord), t ∉ hts →
      (∀ l ∈ leads, l.comments = []) →
      finalArtifact fetch hts leads t = some r → r.comments = []) := by
  constructor
  · intro fetch hts leads i l h
    constructor
    · intro hmem
      rw [enrichLeads_getElem fetch hts leads i l h, if_pos hmem]
    · intro hmem
      rw [enrichLeads_getElem fetch hts leads i l h, if_neg hmem]
  · intro fetch hts leads t r htn hempty hart
    refine updateData_comments (enrichLeads fetch hts leads) (phase1Data leads) t ?_ ?_ r hart
    · intro l2 hl2 hlt
      exact enrichLeads_nonHigh_comments fetch hts leads hempty l2 hl2 (by rw [hlt]; exact htn)
    · intro r2 hr2
      exact phase1Data_comments leads (fun _ => none) (by intro t2 r3 h3; cases h3) t r2 hr2

theorem claim7_selective_enrichment_witness :
    (enrichLeads (fun _ => [⟨"x", "y", 1, 0⟩]) ["T"]
      [⟨"mcp", "T", "u", "id", 0, "", 0, 0, []⟩])[0]? =
        some ⟨"mcp", "T", "u", "id", 0, "", 0, 0, [⟨"x", "y", 1, 0⟩]⟩ :=
  (claim7_selective_enrichment.1 _ _ _ 0 ⟨"mcp", "T", "u", "id", 0, "", 0, 0, []⟩
    (by rfl)).1 (by decide)

theorem beginsWith_iff :
    ∀ (needle hay : List Char),
      (beginsWith needle hay = true ↔ ∃ suf, hay = needle ++ suf) := by
  intro needle
  induction needle with
  | nil => intro hay; simp [beginsWith]
  | cons a as ih =>
    intro hay
    cases hay with
    | nil => simp [beginsWith]
    | cons b bs =>
      simp only [beginsWith, Bool.and_eq_true, beq_iff_eq, List.cons_append,
        List.cons.injEq, ih]
      constructor
      · rintro ⟨heq, suf, hsuf⟩
        exact ⟨suf, heq.symm, hsuf⟩
      · rintro ⟨suf, heq, hsuf⟩
        exact ⟨heq.symm, suf, hsuf⟩

theorem occursIn_iff (needle : List Char) :
    ∀ hay : List Char,
      (occursIn needle hay = true ↔ ∃ pre suf, hay = pre ++ needle ++ suf) := by
  intro hay
  induction hay with
  | nil =>
    simp only [occursIn, List.isEmpty_iff]
    constructor
    · intro h
      exact ⟨[], [], by simp [h]⟩
    · rintro ⟨pre, suf, heq⟩
      have h2 := heq.symm
      rcases List.append_eq_nil.mp h2 with ⟨hpn, hsuf⟩
      rcases List.append_eq_nil.mp hpn with ⟨hpre, hneedle⟩
      simp [hneedle]
  | cons c t ih =>
    simp only [occursIn, Bool.or_eq_true]
    constructor
    · intro h
      rcases h with h | h
      · obtain ⟨suf, hsuf⟩ := (beginsWith_iff needle (c :: t)).mp h
        exact ⟨[], suf, by simp [hsuf]⟩
      · obtain ⟨pre, suf, rfl⟩ := ih.mp h
        exact ⟨c :: pre, suf, rfl⟩
    · rintro ⟨pre, suf, heq⟩
      cases pre with
      | nil =>
        left
        refine (beginsWith_iff needle (c :: t)).mpr ⟨suf, ?_⟩
        simpa using heq
      | cons c2 pre2 =>
        right
        simp only [List.cons_append, List.cons.injEq] at heq
        exact ih.mpr ⟨pre2, suf, heq.2⟩

/-- Claim C8 counterexample: the prefilter's combined text is
`title + " " + body`, not the plain concatenation of title and body: with
title `"We love AI"` and empty body the code passes (keyword `"ai "` matches
thanks to the inserted space) while the spec's concatenation predicate fails. -/
theorem claim8_counterexample :
    prefilterPass "We love AI" "" = true ∧ specPrefilterPass "We love AI" "" = false :=
  ⟨by decide, by decide⟩

/-- Claim C8 (amended): the prefilter is a pure predicate on (title, body):
true iff some fixed-vocabulary keyword occurs as a substring of the
lowercased `title + " " + body` (title and body joined by a single space);
the "Best MCP server for Claude" title passes and "My cat photos" fails. -/
theorem claim8_prefilter (title post : String) :
    (prefilterPass title post = true ↔
      ∃ kw ∈ PREFILTER_KEYWORDS, ∃ pre suf,
        (pyLower (title ++ " " ++ post)).data = pre ++ kw.data ++ suf) ∧
    prefilterPass "Best MCP server for Claude" "" = true ∧
    prefilterPass "My cat photos" "" = false := by
  refine ⟨?_, by decide, by decide⟩
  simp only [prefilterPass, List.any_eq_true, occursIn_iff]

/-- Claim C9 counterexample: in the Hacker News adapter an explicit 429
rate-limit response triggers no backoff and no retry — exactly one request is
issued for the keyword (the claim demands two: the original plus one retry),
and the status is never inspected. -/
theorem claim9_counterexample :
    hnScanChannel "Model Context Protocol" 0 (fun _ => []) (HNFetchOutcome.resp 429 []) =
      ([], 1) ∧
    (hnScanChannel "Model Context Protocol" 0 (fun _ => [])
      (HNFetchOutcome.resp 429 [])).2 < 2 :=
  ⟨rfl, by decide⟩

/-- Claim C9 (amended): in the Reddit adapter a 429 listing response causes
one fixed-backoff sleep and exactly one retry of the same request; any other
non-200 status skips just that channel; an exception yields zero results for
the channel; and each adapter's scan is the independent concatenation of its
per-channel results, so one channel's failure never aborts the scan.  The
Hacker News adapter, by contrast, never inspects the status: one request per
keyword, no retry, the parsed body used whatever the status. -/
theorem claim9_error_handling :
    (∀ (sub : String) (fetch : Nat → FetchOutcome) (posts : List RPost),
      fetch 0 = FetchOutcome.resp 429 posts →
      (scanChannel sub fetch).requests = 2 ∧ (scanChannel sub fetch).backoffSleeps = 1) ∧
    (∀ (sub : String) (fetch : Nat → FetchOutcome) (status : Nat) (posts : List RPost),
      fetch 0 = FetchOutcome.resp status posts → status ≠ 429 → status ≠ 200 →
      scanChannel sub fetch = ⟨[], 1, 0⟩) ∧
    (∀ (sub : String) (fetch : Nat → FetchOutcome),
      fetch 0 = FetchOutcome.exn → scanChannel sub fetch = ⟨[], 1, 0⟩) ∧
    (∀ (subs : List String) (fetch : String → Nat → FetchOutcome),
      redditScan subs fetch = subs.flatMap (fun s => (scanChannel s (fetch s)).leads)) ∧
    (∀ (kw : String) (threshold : Int) (getC : String → List HNComment)
        (status : Nat) (hits : List HNHit),
      hnScanChannel kw threshold getC (HNFetchOutcome.resp status hits) =
        (hnProcessHits kw threshold getC hits, 1) ∧
      hnScanChannel kw threshold getC HNFetchOutcome.exn = ([], 1)) ∧
    (∀ (keywords : List String) (threshold : Int) (getC : String → List HNComment)
        (fetch : String → HNFetchOutcome),
      hnScan keywords threshold getC fetch =
        keywords.flatMap (fun kw => (hnScanChannel kw threshold getC (fetch kw)).1)) := by
  refine ⟨?_, ?_, ?_, ?_, ?_, ?_⟩
  · intro sub fetch posts h
    have hsc : scanChannel sub fetch = match fetch 1 with
        | FetchOutcome.exn => ⟨[], 2, 1⟩
        | FetchOutcome.resp s2 p2 =>
          if s2 ≠ 200 then ⟨[], 2, 1⟩ else ⟨buildLeads sub p2, 2, 1⟩ := by
      unfold scanChannel
      rw [h]
      rfl
    rw [hsc]
    cases fetch 1 with
    | exn => exact ⟨rfl, rfl⟩
    | resp s2 p2 =>
      by_cases h2 : s2 ≠ 200
      · simp [h2]
      · simp [h2]
  · intro sub fetch status posts h hne h200
    simp [scanChannel, h, hne, h200]
  · intro sub fetch h
    simp [scanChannel, h]
  · intro subs fetch
    induction subs with
    | nil => simp [redditScan]
    | cons s rest ih => simp [redditScan, ih]
  · intro kw threshold getC status hits
    exact ⟨rfl, rfl⟩
  · intro keywords threshold getC fetch
    induction keywords with
    | nil => simp [hnScan]
    | cons kw rest ih => simp [hnScan, ih]

theorem claim9_error_handling_witness :
    (scanChannel "mcp" (fun n => if n = 0 then FetchOutcome.resp 429 []
      else FetchOutcome.resp 200 [])).requests = 2 ∧
    (scanChannel "mcp" (fun n => if n = 0 then FetchOutcome.resp 429 []
      else FetchOutcome.resp 200 [])).backoffSleeps = 1 :=
  claim9_error_handling.1 "mcp" _ [] (by rfl)

/-- Claim C10: in the Reddit phase-1 scan, every listing post marked
`stickied` is excluded: the leads built for a channel are exactly the
non-stickied posts mapped to leads, in listing order, for every subreddit
and every 200-status listing response. -/
theorem claim10_stickied_excluded :
    (∀ (sub : String) (posts : List RPost),
      buildLeads sub posts =
        (posts.filter (fun p => !p.stickied)).map (leadOfPost sub)) ∧
    (∀ (sub : String) (posts : List RPost),
      (scanChannel sub (fun _ => FetchOutcome.resp 200 posts)).leads =
        (posts.filter (fun p => !p.stickied)).map (leadOfPost sub)) := by
  have hb : ∀ (sub : String) (posts : List RPost), buildLeads sub posts =
      (posts.filter (fun p => !p.stickied)).map (leadOfPost sub) := by
    intro sub posts
    induction posts with
    | nil => simp [buildLeads]
    | cons p rest ih =>
      cases hs : p.stickied with
      | true => simp [buildLeads, hs, ih]
      | false => simp [buildLeads, hs, ih]
  refine ⟨hb, ?_⟩
  intro sub posts
  simp [scanChannel, hb]

end Nitroscout
